import Mathlib

/-!
Verification of the client transport / uploader / signaling-bridge /
operation-waiter layer of the cloud-android-orchestration repository.

The Go sources are embedded shallowly:
* durations are naturals (milliseconds) or rationals where fractional
  multipliers matter,
* byte contents are lists of naturals,
* fallible operations return `Except` / `Option`,
* external I/O (HTTP exchanges, `os.Stat`, the send/receive channels) is
  supplied as explicit function arguments (oracles) so that the pure control
  flow of the source functions is what gets verified.
-/

/-- Chunk job, from `uploadChunkJob` in the client package: the n-th chunk is
the segment of `ChunkSizeBytes` bytes starting at byte `(n-1)*ChunkSizeBytes`
of the file. `ChunkNumber` ranges over `[1, TotalChunks]`. -/
structure uploadChunkJob where
  Filename : String
  ChunkNumber : Nat
  TotalChunks : Nat
  ChunkSizeBytes : Nat
deriving Repr, DecidableEq

/-- Per-file info, from `fileInfo` in the client package. -/
structure fileInfo where
  Name : String
  TotalChunks : Nat
deriving Repr, DecidableEq

/-- Total chunk count as computed by `getFilesInfos`:
`(stat.Size() + u.ChunkSizeBytes - 1) / u.ChunkSizeBytes`. -/
def totalChunksOf (size chunkSizeBytes : Nat) : Nat :=
  (size + chunkSizeBytes - 1) / chunkSizeBytes

/-- Model of `filesUploader.getFilesInfos`: `os.Stat` is supplied as an oracle
mapping a filename to its size (or `none` on a stat failure, which aborts with
that file's name as the error). -/
def getFilesInfos (stat : String → Option Nat) (chunkSizeBytes : Nat) :
    List String → Except String (List fileInfo)
  | [] => .ok []
  | name :: rest =>
    match stat name with
    | none => .error name
    | some size =>
      match getFilesInfos stat chunkSizeBytes rest with
      | .error e => .error e
      | .ok infos =>
          .ok ({ Name := name, TotalChunks := totalChunksOf size chunkSizeBytes } :: infos)

/-- Bytes of the file sent by `writeMultipartRequest` for a chunk job: the file
is opened and `Seek`ed to `(ChunkNumber-1) * ChunkSizeBytes`, then `io.CopyN`
streams exactly `ChunkSizeBytes` bytes for a non-final chunk, and `io.Copy`
streams the remainder of the file for the final chunk. -/
def writeMultipartRequest (file : List Nat) (job : uploadChunkJob) : List Nat :=
  let rest := file.drop ((job.ChunkNumber - 1) * job.ChunkSizeBytes)
  if job.ChunkNumber < job.TotalChunks then rest.take job.ChunkSizeBytes else rest

/-- Jobs generated for one file by the loop body of `sendJobs`: chunk numbers
`1, 2, ..., TotalChunks` in ascending order. -/
def jobsForInfo (chunkSizeBytes : Nat) (info : fileInfo) : List uploadChunkJob :=
  (List.range info.TotalChunks).map fun i =>
    { Filename := info.Name, ChunkNumber := i + 1, TotalChunks := info.TotalChunks,
      ChunkSizeBytes := chunkSizeBytes }

/-- Helper for `sendJobs`: dispatch jobs, numbering dispatch steps from `i`;
before each send the generator selects on `ctx.Done()` and returns as soon as
the shared context reports cancellation. -/
def sendJobsFrom (cancelled : Nat → Bool) : Nat → List uploadChunkJob → List uploadChunkJob
  | _, [] => []
  | i, j :: rest => if cancelled i then [] else j :: sendJobsFrom cancelled (i + 1) rest

/-- Model of `filesUploader.sendJobs`: the jobs actually enqueued on the jobs
channel, given which dispatch steps see the shared context already
cancelled. -/
def sendJobs (cancelled : Nat → Bool) (jobs : List uploadChunkJob) : List uploadChunkJob :=
  sendJobsFrom cancelled 0 jobs

/-- Ceiling-division characterisation helper: for a positive chunk size the
computed chunk count `tc` satisfies `S ≤ tc * C < S + C`, which pins `tc` as
`ceil(S / C)`. -/
theorem totalChunksOf_ceil (S C : Nat) (hC : 0 < C) :
    S ≤ totalChunksOf S C * C ∧ totalChunksOf S C * C < S + C := by
  unfold totalChunksOf
  have hdm := Nat.div_add_mod (S + C - 1) C
  have hmlt := Nat.mod_lt (S + C - 1) hC
  rcases Nat.eq_zero_or_pos S with hS | hS
  · subst hS
    have h0 : (0 + C - 1) / C = 0 := by
      have he : 0 + C - 1 = C - 1 := by omega
      rw [he]
      exact Nat.div_eq_of_lt (Nat.sub_lt hC Nat.one_pos)
    rw [h0]
    omega
  · constructor
    · rw [Nat.mul_comm]
      omega
    · rw [Nat.mul_comm]
      omega

/-- C1. For a file of `S` bytes and chunk size `C > 0`, `getFilesInfos` derives
`totalChunks = ceil(S / C)` (characterised by `S ≤ tc*C < S + C`), and the job
for chunk `n` with `1 ≤ n ≤ totalChunks` reads the source file from byte
offset `(n-1)*C`: a non-final chunk carries exactly `C` bytes
(`take C` of the suffix) and the final chunk carries the remaining
`S - (n-1)*C` bytes. -/
theorem uploader_chunk_layout (S C n : Nat) (nm : String) (file : List Nat)
    (hC : 0 < C) (hn1 : 1 ≤ n) (hn : n ≤ totalChunksOf S C) (hfile : file.length = S) :
    (S ≤ totalChunksOf S C * C ∧ totalChunksOf S C * C < S + C) ∧
    (n < totalChunksOf S C →
      writeMultipartRequest file ⟨nm, n, totalChunksOf S C, C⟩ =
        (file.drop ((n - 1) * C)).take C ∧
      (writeMultipartRequest file ⟨nm, n, totalChunksOf S C, C⟩).length = C) ∧
    (n = totalChunksOf S C →
      writeMultipartRequest file ⟨nm, n, totalChunksOf S C, C⟩ =
        file.drop ((n - 1) * C) ∧
      (writeMultipartRequest file ⟨nm, n, totalChunksOf S C, C⟩).length = S - (n - 1) * C) := by
  have hceil := totalChunksOf_ceil S C hC
  refine ⟨hceil, ?_, ?_⟩
  · intro hlt
    constructor
    · simp [writeMultipartRequest, hlt]
    · simp only [writeMultipartRequest, hlt, if_pos]
      rw [List.length_take, List.length_drop, hfile]
      -- enough bytes remain: (n-1)*C + C = n*C ≤ (tc-1)*C + C... and tc*C < S + C
      have hnc : n * C < S := by
        have h1 : n + 1 ≤ totalChunksOf S C := hlt
        have h2 : (n + 1) * C ≤ totalChunksOf S C * C := Nat.mul_le_mul_right C h1
        have h3 : totalChunksOf S C * C < S + C := hceil.2
        have h4 : (n + 1) * C < S + C := Nat.lt_of_le_of_lt h2 h3
        have h5 : n * C + C < S + C := by rw [Nat.succ_mul] at h4; omega
        omega
      have : (n - 1) * C + C = n * C := by
        have : n - 1 + 1 = n := Nat.succ_pred_eq_of_pos hn1
        calc (n - 1) * C + C = (n - 1 + 1) * C := by rw [Nat.succ_mul]
        _ = n * C := by rw [this]
      omega
  · intro heq
    constructor
    · simp [writeMultipartRequest, heq]
    · simp only [writeMultipartRequest, heq, Nat.lt_irrefl, if_neg, not_false_iff]
      rw [List.length_drop, hfile]

/-- Witness for C1 at the spec's example: a 1000-byte file with chunk size 300
yields `totalChunks = 4`; chunks 1-3 carry 300 bytes each and chunk 4 carries
the 100 bytes starting at offset 900 (covering `[900, 1000)`). -/
theorem uploader_chunk_layout_witness :
    totalChunksOf 1000 300 = 4 ∧
    (writeMultipartRequest (List.replicate 1000 7) ⟨"f", 1, totalChunksOf 1000 300, 300⟩).length
      = 300 ∧
    (writeMultipartRequest (List.replicate 1000 7) ⟨"f", 2, totalChunksOf 1000 300, 300⟩).length
      = 300 ∧
    (writeMultipartRequest (List.replicate 1000 7) ⟨"f", 3, totalChunksOf 1000 300, 300⟩).length
      = 300 ∧
    writeMultipartRequest (List.replicate 1000 7) ⟨"f", 4, totalChunksOf 1000 300, 300⟩ =
      (List.replicate 1000 7).drop ((4 - 1) * 300) ∧
    (writeMultipartRequest (List.replicate 1000 7) ⟨"f", 4, totalChunksOf 1000 300, 300⟩).length
      = 100 := by
  have h1 := uploader_chunk_layout 1000 300 1 "f" (List.replicate 1000 7)
    (by decide) (by decide) (by decide) (by rw [List.length_replicate])
  have h2 := uploader_chunk_layout 1000 300 2 "f" (List.replicate 1000 7)
    (by decide) (by decide) (by decide) (by rw [List.length_replicate])
  have h3 := uploader_chunk_layout 1000 300 3 "f" (List.replicate 1000 7)
    (by decide) (by decide) (by decide) (by rw [List.length_replicate])
  have h4 := uploader_chunk_layout 1000 300 4 "f" (List.replicate 1000 7)
    (by decide) (by decide) (by decide) (by rw [List.length_replicate])
  refine ⟨by decide, ?_, ?_, ?_, ?_, ?_⟩
  · exact (h1.2.1 (by decide)).2
  · exact (h2.2.1 (by decide)).2
  · exact (h3.2.1 (by decide)).2
  · exact (h4.2.2 (by decide)).1
  · have hl := (h4.2.2 (by decide)).2
    omega

/-- HTTP response model: a status code and the raw body text. Decoding a body
is modelled as returning the body itself. -/
structure HttpResponse where
  status : Nat
  body : String
deriving Repr, DecidableEq

/-- Predicate `isRetryableErrorCode` from the client package: the fixed
transient set is 503 (Service Unavailable) and 502 (Bad Gateway). -/
def isRetryableErrorCode (code : Nat) : Bool :=
  code == 503 || code == 502

/-- Outcome of `doRequestWithOpts`: a decoded 2xx payload, a decoded non-2xx
error body, or (for DELETE, whose error responses carry no body) a bare
status. -/
inductive RequestResult where
  | payload (body : String)
  | apiCallError (body : String)
  | statusError (status : Nat)
deriving Repr, DecidableEq

/-- Retry loop of `doRequestWithOpts`. `server i` is the response to the i-th
(0-based) transmission of the identical request; the loop retries while the
current status is retryable and fewer than `RetryAttempts` retries were made.
Returns the index of the attempt whose response is finally processed, which
equals the number of retries performed. -/
def retryLoop (server : Nat → HttpResponse) : Nat → Nat → Nat
  | 0, idx => idx
  | fuel + 1, idx =>
      if isRetryableErrorCode (server idx).status then retryLoop server fuel (idx + 1) else idx

/-- Total time slept by the retry loop: `time.Sleep(RetryDelay)` precedes every
retry. -/
def retrySleep (server : Nat → HttpResponse) (retryDelay : Nat) : Nat → Nat → Nat
  | 0, _ => 0
  | fuel + 1, idx =>
      if isRetryableErrorCode (server idx).status then
        retryDelay + retrySleep server retryDelay fuel (idx + 1)
      else 0

/-- Model of `doRequestWithOpts`: send, retry on 503/502 up to `retryAttempts`
times, then process the final response: non-2xx decodes the error body (DELETE
gets a bare status error) and 2xx decodes the payload. -/
def doRequestWithOpts (server : Nat → HttpResponse) (retryAttempts : Nat)
    (method : String) : RequestResult :=
  let res := server (retryLoop server retryAttempts 0)
  if res.status < 200 || 299 < res.status then
    if method == "DELETE" then .statusError res.status else .apiCallError res.body
  else .payload res.body

/-- Server scenario for the C2 counterexample: 503 on the first two attempts,
then 200 with body "payload-ok". -/
def serverTwice503 : Nat → HttpResponse :=
  fun i => if i < 2 then ⟨503, "err-body"⟩ else ⟨200, "payload-ok"⟩

/-- Counterexample to C2. With `RetryAttempts = 1` and a server that answers
503 on the first `N = 2` attempts and then 2xx, the transport performs
`min(RetryAttempts, N) = 1` retry but does NOT return the decoded payload of
the final 2xx response: it stops at the second 503 and returns the decoded
error body. -/
theorem transport_retry_counterexample :
    (∀ i, i < 2 → (serverTwice503 i).status = 503) ∧
    (serverTwice503 2).status = 200 ∧
    retryLoop serverTwice503 1 0 = min 1 2 ∧
    doRequestWithOpts serverTwice503 1 "POST" ≠ RequestResult.payload "payload-ok" ∧
    doRequestWithOpts serverTwice503 1 "POST" = RequestResult.apiCallError "err-body" := by
  refine ⟨?_, by decide, by decide, by decide, by decide⟩
  decide

/-- Helper: when the first `N` responses are retryable and response `N` is
not, the retry loop starting at attempt `idx ≤ N` with `fuel` retries left
stops at attempt `min (idx + fuel) N`. -/
theorem retryLoop_min (server : Nat → HttpResponse) (N : Nat)
    (hN : ∀ i, i < N → isRetryableErrorCode (server i).status = true)
    (hstop : isRetryableErrorCode (server N).status = false) :
    ∀ fuel idx, idx ≤ N → retryLoop server fuel idx = min (idx + fuel) N := by
  intro fuel
  induction fuel with
  | zero =>
      intro idx hidx
      simp [retryLoop]
      omega
  | succ f ih =>
      intro idx hidx
      rcases Nat.lt_or_ge idx N with hlt | hge
      · have hr := hN idx hlt
        rw [retryLoop, hr]
        simp only [if_true]
        have := ih (idx + 1) hlt
        rw [this]
        omega
      · have hidxN : idx = N := Nat.le_antisymm hidx hge
        subst hidxN
        rw [retryLoop, hstop]
        simp

/-- Helper: under the same scenario the total slept time is one `RetryDelay`
per retry performed. -/
theorem retrySleep_min (server : Nat → HttpResponse) (N retryDelay : Nat)
    (hN : ∀ i, i < N → isRetryableErrorCode (server i).status = true)
    (hstop : isRetryableErrorCode (server N).status = false) :
    ∀ fuel idx, idx ≤ N →
      retrySleep server retryDelay fuel idx = (min (idx + fuel) N - idx) * retryDelay := by
  intro fuel
  induction fuel with
  | zero =>
      intro idx hidx
      simp [retrySleep]
  | succ f ih =>
      intro idx hidx
      rcases Nat.lt_or_ge idx N with hlt | hge
      · have hr := hN idx hlt
        rw [retrySleep, hr]
        simp only [if_true]
        have := ih (idx + 1) hlt
        rw [this]
        have h1 : min (idx + (f + 1)) N - idx = (min (idx + 1 + f) N - (idx + 1)) + 1 := by omega
        rw [h1, Nat.succ_mul]
        omega
      · have hidxN : idx = N := Nat.le_antisymm hidx hge
        subst hidxN
        rw [retrySleep, hstop]
        simp

/-- C2 (amended). When the server answers each of the first `N` attempts with
503 or 502 and attempt `N` with a 2xx, `doRequestWithOpts` retries the
identical request exactly `min(RetryAttempts, N)` times, sleeping
`RetryDelay` before each retry (total `min(RetryAttempts, N) * RetryDelay`);
when `N ≤ RetryAttempts` it returns the successfully decoded payload of the
final 2xx response, and when `N > RetryAttempts` it stops after
`RetryAttempts` retries and returns the decoded error body of the last
transient (503/502) response instead. -/
theorem transport_retry_amended (server : Nat → HttpResponse)
    (retryAttempts N retryDelay : Nat) (method : String)
    (hN : ∀ i, i < N → (server i).status = 503 ∨ (server i).status = 502)
    (h2xx : 200 ≤ (server N).status ∧ (server N).status ≤ 299)
    (hmethod : method ≠ "DELETE") :
    retryLoop server retryAttempts 0 = min retryAttempts N ∧
    retrySleep server retryDelay retryAttempts 0 = min retryAttempts N * retryDelay ∧
    (N ≤ retryAttempts →
      doRequestWithOpts server retryAttempts method = .payload (server N).body) ∧
    (retryAttempts < N →
      doRequestWithOpts server retryAttempts method = .apiCallError (server retryAttempts).body) := by
  have hretry : ∀ i, i < N → isRetryableErrorCode (server i).status = true := by
    intro i hi
    rcases hN i hi with h | h <;> rw [h] <;> rfl
  have hstop : isRetryableErrorCode (server N).status = false := by
    unfold isRetryableErrorCode
    have := h2xx.1
    have := h2xx.2
    rcases h2xx with ⟨hlo, hhi⟩
    have h503 : (server N).status ≠ 503 := by omega
    have h502 : (server N).status ≠ 502 := by omega
    simp [h503, h502]
  have hloop := retryLoop_min server N hretry hstop retryAttempts 0 (Nat.zero_le N)
  have hsleep := retrySleep_min server N retryDelay hretry hstop retryAttempts 0 (Nat.zero_le N)
  simp only [Nat.zero_add, Nat.sub_zero] at hloop hsleep
  refine ⟨hloop, hsleep, ?_, ?_⟩
  · intro hle
    have hfin : retryLoop server retryAttempts 0 = N := by rw [hloop]; omega
    unfold doRequestWithOpts
    rw [hfin]
    have hnot : ¬((server N).status < 200 || 299 < (server N).status) = true := by
      simp only [Bool.or_eq_true, decide_eq_true_eq]
      omega
    simp only [hnot, if_neg, Bool.not_eq_true]
  · intro hgt
    have hfin : retryLoop server retryAttempts 0 = retryAttempts := by rw [hloop]; omega
    unfold doRequestWithOpts
    rw [hfin]
    have hm : (method == "DELETE") = false := beq_eq_false_iff_ne.mpr hmethod
    rcases hN retryAttempts hgt with h5x | h5x <;> simp [h5x, hm]

/-- Server scenario mixing both transient statuses: 502 on attempt 0, 503 on
attempt 1, then 200. -/
def serverMixed5xx : Nat → HttpResponse :=
  fun i => if i = 0 then ⟨502, "bad-gateway"⟩
           else if i = 1 then ⟨503, "unavailable"⟩
           else ⟨200, "payload-ok"⟩

/-- Witness for C2 (amended) at two concrete scenarios with `N = 2`: with
`RetryAttempts = 3` and two 503s, two retries, 100ms total sleep and the
decoded 2xx payload; with `RetryAttempts = 1` and a 502 then a 503, one retry
and the decoded error body of the last transient response. -/
theorem transport_retry_amended_witness :
    (retryLoop serverTwice503 3 0 = min 3 2 ∧
      retrySleep serverTwice503 50 3 0 = min 3 2 * 50 ∧
      doRequestWithOpts serverTwice503 3 "POST" = .payload (serverTwice503 2).body) ∧
    (retryLoop serverMixed5xx 1 0 = min 1 2 ∧
      doRequestWithOpts serverMixed5xx 1 "POST" = .apiCallError (serverMixed5xx 1).body) := by
  have h := transport_retry_amended serverTwice503 3 2 50 "POST"
    (by decide) (by decide) (by decide)
  have h2 := transport_retry_amended serverMixed5xx 1 2 50 "POST"
    (by decide) (by decide) (by decide)
  exact ⟨⟨h.1, h.2.1, h.2.2.1 (by decide)⟩, h2.1, h2.2.2.2 (by decide)⟩

/-- Constants of the polling loop, from the client package: the interval
bounds (in milliseconds) and the consecutive-error threshold. -/
def initialPollInterval : Nat := 100

/-- Upper bound of the poll interval (2 seconds, in milliseconds). -/
def maxPollInterval : Nat := 2000

/-- Maximum number of consecutive errors tolerated by each bridge loop. -/
def maxConsecutiveErrors : Nat := 10

/-- Poll interval update performed by one iteration of `webRTCPoll`: a
non-empty batch resets to `initialPollInterval`; an empty batch doubles the
interval and caps it at `maxPollInterval`. -/
def nextPollInterval (pollInterval numMessages : Nat) : Nat :=
  if 0 < numMessages then initialPollInterval
  else
    let p := 2 * pollInterval
    if maxPollInterval < p then maxPollInterval else p

/-- Poll interval after a sequence of polls whose batch sizes are `counts`,
starting from the initial interval as `webRTCPoll` does. -/
def pollIntervalAfter (counts : List Nat) : Nat :=
  counts.foldl nextPollInterval initialPollInterval

/-- Helper invariant: `nextPollInterval` maps `[100, 2000]` into itself. -/
theorem pollIntervalAfter_bounds_aux :
    ∀ (counts : List Nat) (p : Nat), 100 ≤ p → p ≤ 2000 →
      100 ≤ counts.foldl nextPollInterval p ∧ counts.foldl nextPollInterval p ≤ 2000 := by
  intro counts
  induction counts with
  | nil => intro p h1 h2; exact ⟨h1, h2⟩
  | cons c rest ih =>
      intro p h1 h2
      rw [List.foldl_cons]
      apply ih
      · unfold nextPollInterval initialPollInterval maxPollInterval
        split
        · omega
        · simp only []
          split
          · omega
          · omega
      · unfold nextPollInterval initialPollInterval maxPollInterval
        split
        · omega
        · simp only []
          split
          · omega
          · omega

/-- C6. The poll interval of the inbound loop starts at 100ms and stays within
`[100ms, 2s]` in every reachable state; a poll returning zero messages doubles
it (capped at 2s) and a poll returning at least one message resets it to
100ms. -/
theorem poll_interval_invariant :
    pollIntervalAfter [] = 100 ∧
    (∀ counts : List Nat, 100 ≤ pollIntervalAfter counts ∧ pollIntervalAfter counts ≤ 2000) ∧
    (∀ p : Nat, nextPollInterval p 0 = min (2 * p) 2000) ∧
    (∀ p k : Nat, nextPollInterval p (k + 1) = 100) := by
  refine ⟨rfl, ?_, ?_, ?_⟩
  · intro counts
    exact pollIntervalAfter_bounds_aux counts 100 (Nat.le_refl 100) (by omega)
  · intro p
    unfold nextPollInterval maxPollInterval
    simp only [Nat.lt_irrefl, if_false]
    split
    · omega
    · omega
  · intro p k
    unfold nextPollInterval initialPollInterval
    simp

/-- Message envelope polled by the bridge: a `message_type` discriminator and
a payload; only `device_msg` messages are forwarded to the receive channel. -/
structure PolledMessage where
  message_type : String
  payload : String
deriving Repr, DecidableEq

/-- Model of `webRTCForward`, the outbound loop. `msgs` is the sequence of
messages read from the send channel before the caller closes it (the end of
the list is the channel closure); `ok m i` tells whether the i-th POST of
message `m` succeeds. Each message is retried up to `maxConsecutiveErrors`
times. The loop ends by closing the shared stop signal `stopPollCh`, either
when the channel closes or when a message exhausts its retries; the returned
Boolean is whether `stopPollCh` was closed (and the Nat counts fully forwarded
messages). -/
def webRTCForward (ok : Nat → Nat → Bool) : List String → Bool × Nat
  | [] => (true, 0)
  | _ :: rest =>
      if (List.range maxConsecutiveErrors).any (fun i => ok 0 i) then
        let r := webRTCForward (fun m => ok (m + 1)) rest
        (r.1, r.2 + 1)
      else (true, 0)

/-- State of the inbound polling loop (`webRTCPoll` locals). -/
structure PollState where
  start : Nat
  pollInterval : Nat
  errCount : Nat
deriving Repr, DecidableEq

/-- One iteration of `webRTCPoll`: perform the poll (`res`), update the error
counter, interval and cursor, deliver `device_msg` payloads, then select on
the stop signal versus the next tick. `stopClosed` is whether `stopPollCh` is
closed by the time the iteration reaches the select. Returns whether the
receive channel (`sinkCh`) was closed, and the next state when the loop
continues. -/
def webRTCPollStep (res : Except String (List PolledMessage)) (stopClosed : Bool)
    (st : PollState) : Bool × Option PollState :=
  match res with
  | .error _ =>
      if maxConsecutiveErrors ≤ st.errCount + 1 then (true, none)
      else
        let st' : PollState :=
          { start := st.start, pollInterval := nextPollInterval st.pollInterval 0,
            errCount := st.errCount + 1 }
        if stopClosed then (true, none) else (false, some st')
  | .ok messages =>
      let delivered := messages.filter (fun m => m.message_type == "device_msg")
      let st' : PollState :=
        { start := st.start + delivered.length,
          pollInterval := nextPollInterval st.pollInterval messages.length,
          errCount := 0 }
      if stopClosed then (true, none) else (false, some st')

/-- C7. Closing the send channel cascades shutdown: whatever messages were
pending and however their forwards go, the outbound loop terminates having
closed the shared stop signal; and once the stop signal is closed, the very
next iteration of the inbound loop (one extra poll cycle) closes the receive
channel and stops, whatever that poll returned. -/
theorem bridge_shutdown_cascade :
    (∀ (ok : Nat → Nat → Bool) (msgs : List String), (webRTCForward ok msgs).1 = true) ∧
    (∀ (res : Except String (List PolledMessage)) (st : PollState),
      (webRTCPollStep res true st).1 = true ∧ (webRTCPollStep res true st).2 = none) := by
  constructor
  · intro ok msgs
    induction msgs generalizing ok with
    | nil => rfl
    | cons m rest ih =>
        unfold webRTCForward
        split
        · exact ih (fun m => ok (m + 1))
        · rfl
  · intro res st
    match res with
    | .error e =>
        by_cases h : maxConsecutiveErrors ≤ st.errCount + 1
        · simp [webRTCPollStep, h]
        · simp [webRTCPollStep, h]
    | .ok messages =>
        simp [webRTCPollStep]

/-- Aggregation loop of `filesUploader.Upload`: every error from the results
channel is reported for diagnostics, but only the first one is stored in
`returnErr` (at which moment the shared context is cancelled); later errors
are discarded. -/
def uploadLoop (returnErr : Option String) : List (Option String) → Option String
  | [] => returnErr
  | none :: rest => uploadLoop returnErr rest
  | some e :: rest =>
      match returnErr with
      | none => uploadLoop (some e) rest
      | some e0 => uploadLoop (some e0) rest

/-- Helper: once `returnErr` is set, the aggregation loop never changes it. -/
theorem uploadLoop_frozen (e0 : String) :
    ∀ results : List (Option String), uploadLoop (some e0) results = some e0 := by
  intro results
  induction results with
  | nil => rfl
  | cons r rest ih =>
      match r with
      | none => rw [uploadLoop]; exact ih
      | some e => rw [uploadLoop]; exact ih

/-- Helper: the aggregation loop skips a prefix of successes. -/
theorem uploadLoop_skip_none :
    ∀ (pre : List (Option String)), (∀ x ∈ pre, x = none) →
      ∀ rest, uploadLoop none (pre ++ rest) = uploadLoop none rest := by
  intro pre
  induction pre with
  | nil => intro _ rest; rfl
  | cons p ps ih =>
      intro hall rest
      have hp : p = none := hall p (List.mem_cons_self p ps)
      subst hp
      rw [List.cons_append, uploadLoop]
      exact ih (fun x hx => hall x (List.mem_cons_of_mem none hx)) rest

/-- Helper: `sendJobsFrom` dispatches at most `k - i` jobs when step `k` sees
the context cancelled. -/
theorem sendJobsFrom_le (cancelled : Nat → Bool) (k : Nat) (hk : cancelled k = true) :
    ∀ (jobs : List uploadChunkJob) (i : Nat), i ≤ k →
      (sendJobsFrom cancelled i jobs).length ≤ k - i := by
  intro jobs
  induction jobs with
  | nil => intro i _; simp [sendJobsFrom]
  | cons j rest ih =>
      intro i hi
      rw [sendJobsFrom]
      by_cases hc : cancelled i = true
      · simp [hc]
      · have hne : i ≠ k := by
          intro h
          exact hc (h ▸ hk)
        have hik : i < k := Nat.lt_of_le_of_ne hi hne
        simp only [hc, if_neg, Bool.not_eq_true, List.length_cons]
        have := ih (i + 1) hik
        omega

/-- C3. When some chunk fails while others succeed: the `Upload` aggregation
loop returns the first error received from the workers (errors received
afterwards are reported but discarded — the result does not depend on them),
and once the shared context is cancelled at dispatch step `k`, the generator
enqueues no job at step `k` or later, so at most `k` jobs are ever
dispatched. -/
theorem upload_first_error_and_cancellation
    (pre rest : List (Option String)) (e : String)
    (hpre : ∀ x ∈ pre, x = none)
    (cancelled : Nat → Bool) (jobs : List uploadChunkJob) (k : Nat)
    (hk : cancelled k = true) :
    uploadLoop none (pre ++ some e :: rest) = some e ∧
    (sendJobs cancelled jobs).length ≤ k := by
  constructor
  · rw [uploadLoop_skip_none pre hpre (some e :: rest), uploadLoop]
    exact uploadLoop_frozen e rest
  · have := sendJobsFrom_le cancelled k hk jobs 0 (Nat.zero_le k)
    simpa [sendJobs] using this

/-- Witness for C3 at the spec's example: chunk 2 of 4 fails permanently while
chunks 1, 3, 4 succeed (results arrive as success, error, success, success);
the upload returns that error, and with the context cancelled from dispatch
step 1 on, at most one further job is dispatched. -/
theorem upload_first_error_and_cancellation_witness :
    uploadLoop none ([none] ++ some "chunk 2 failed" :: [none, none]) = some "chunk 2 failed" ∧
    (sendJobs (fun i => decide (1 ≤ i))
      (jobsForInfo 300 { Name := "f", TotalChunks := 4 })).length ≤ 1 := by
  exact upload_first_error_and_cancellation [none] [none, none] "chunk 2 failed"
    (by intro x hx; simpa using hx)
    (fun i => decide (1 ≤ i))
    (jobsForInfo 300 { Name := "f", TotalChunks := 4 }) 1 (by decide)

/-- Model of `filesUploader.Upload` composed end to end, serialized: compute
the file infos, generate every chunk job in file order then ascending chunk
order, run each job (its outcome supplied by the `outcome` oracle), and
aggregate the results with the first-error-wins loop. The interleaving in
which the first error cancels dispatch early is covered by `sendJobs`; here
dispatch observes no cancellation, which coincides with every schedule
whenever no outcome is an error (and in particular when there are no jobs at
all). Returns the aggregated result and the dispatched jobs. -/
def Upload (chunkSizeBytes : Nat) (stat : String → Option Nat)
    (outcome : uploadChunkJob → Option String) (filenames : List String) :
    Except String (Option String) × List uploadChunkJob :=
  match getFilesInfos stat chunkSizeBytes filenames with
  | .error e => (.error e, [])
  | .ok infos =>
      let jobs := sendJobs (fun _ => false) (infos.flatMap (jobsForInfo chunkSizeBytes))
      (.ok (uploadLoop none (jobs.map outcome)), jobs)

/-- Model of `serviceImpl.UploadFiles`: a zero `ChunkSizeBytes` panics
(modelled as an error) before the uploader is even built — no chunk job is
created and no request is issued; otherwise it builds the uploader and runs
`Upload`. -/
def UploadFiles (chunkSizeBytes : Nat) (stat : String → Option Nat)
    (outcome : uploadChunkJob → Option String) (filenames : List String) :
    Except String (Option String) × List uploadChunkJob :=
  if chunkSizeBytes = 0 then (.error "ChunkSizeBytes value cannot be zero", [])
  else Upload chunkSizeBytes stat outcome filenames

/-- C5. For every destination environment and non-empty file list, calling the
upload entry point with `chunkSizeBytes = 0` fails immediately: the result is
the contract-violation error and the dispatched-job list is empty, so no chunk
job exists for any worker to turn into an upload request. -/
theorem upload_zero_chunk_size_fails (stat : String → Option Nat)
    (outcome : uploadChunkJob → Option String) (filenames : List String)
    (hne : filenames ≠ []) :
    UploadFiles 0 stat outcome filenames =
      (.error "ChunkSizeBytes value cannot be zero", []) := by
  rfl

/-- Witness for C5 with the one-file list `["a"]` (any stat result, every
outcome succeeding). -/
theorem upload_zero_chunk_size_fails_witness :
    UploadFiles 0 (fun _ => some 1000) (fun _ => none) ["a"] =
      (.error "ChunkSizeBytes value cannot be zero", []) :=
  upload_zero_chunk_size_fails (fun _ => some 1000) (fun _ => none) ["a"] (by decide)

/-- Backoff configuration, from `BackOffOpts` in the client package. Durations
are rationals (milliseconds) so that fractional multipliers such as 1.5 are
exact. -/
structure BackOffOpts where
  InitialDuration : ℚ
  RandomizationFactor : ℚ
  Multiplier : ℚ
  MaxElapsedTime : ℚ
deriving Repr, DecidableEq

/-- Mutable state of the `backoff.ExponentialBackOff` object a worker builds
in `Start`: the current interval, the elapsed time since the last `Reset`
(here the accumulated slept time), and a cursor into the randomization
stream. -/
structure ExponentialBackOff where
  currentInterval : ℚ
  elapsedTime : ℚ
  randIndex : Nat
deriving Repr, DecidableEq

/-- `b.Reset()`: restore the initial interval and restart the elapsed-time
clock. -/
def backOffReset (o : BackOffOpts) (b : ExponentialBackOff) : ExponentialBackOff :=
  { currentInterval := o.InitialDuration, elapsedTime := 0, randIndex := b.randIndex }

/-- `b.NextBackOff()`: the next delay is the current interval scaled by the
randomization draw `rand b.randIndex` (a value in
`[1 - RandomizationFactor, 1 + RandomizationFactor]`); when a nonzero
`MaxElapsedTime` would be exceeded the call returns `backoff.Stop` (modelled
as `none`), otherwise the delay is returned, the current interval is
multiplied by `Multiplier` and the elapsed time advances by the delay. -/
def nextBackOff (o : BackOffOpts) (rand : Nat → ℚ) (b : ExponentialBackOff) :
    Option ℚ × ExponentialBackOff :=
  let next := b.currentInterval * rand b.randIndex
  if o.MaxElapsedTime ≠ 0 ∧ o.MaxElapsedTime < b.elapsedTime + next then
    (none, { b with randIndex := b.randIndex + 1 })
  else
    (some next,
      { currentInterval := b.currentInterval * o.Multiplier,
        elapsedTime := b.elapsedTime + next,
        randIndex := b.randIndex + 1 })

/-- Retry loop for one job inside `uploadChunkWorker.Start`: attempt the
upload (`uploadOk a` tells whether attempt `a` succeeds); on success call
`b.Reset()` and report `nil`; on failure ask the shared backoff object for the
next delay, reporting a terminal error when it answers `backoff.Stop`. `fuel`
bounds the recursion; the loop in the source only ends through the success or
Stop branches, and running out of fuel conservatively reports an error. -/
def runJob (o : BackOffOpts) (rand : Nat → ℚ) (uploadOk : Nat → Bool) :
    Nat → Nat → ExponentialBackOff → Option String × ExponentialBackOff
  | _, 0, b => (some "chunk upload failed", b)
  | a, fuel + 1, b =>
      if uploadOk a then (none, backOffReset o b)
      else
        match nextBackOff o rand b with
        | (none, b') => (some "chunk upload failed", b')
        | (some _, b') => runJob o rand uploadOk (a + 1) fuel b'

/-- The job loop of `uploadChunkWorker.Start`: one backoff object is created
per worker and threaded through every job the worker handles; it is reset
only inside `runJob`'s success branch. Returns the per-job results in order
and the final backoff state. -/
def workerStart (o : BackOffOpts) (rand : Nat → ℚ) (fuel : Nat) :
    List (Nat → Bool) → ExponentialBackOff → List (Option String) × ExponentialBackOff
  | [], b => ([], b)
  | job :: rest, b =>
      let r := runJob o rand job 0 fuel b
      let rs := workerStart o rand fuel rest r.2
      (r.1 :: rs.1, rs.2)

/-- Backoff options of the C4 scenario: initial interval 1, no randomization,
multiplier 2, max elapsed time 3. -/
def backOffOptsEx : BackOffOpts :=
  { InitialDuration := 1, RandomizationFactor := 0, Multiplier := 2, MaxElapsedTime := 3 }

/-- Randomization stream with factor 0: every draw is exactly 1. -/
def randOne : Nat → ℚ := fun _ => 1

/-- Worker state right after `NewExponentialBackOff` plus the option
assignments plus the initial `b.Reset()` in `Start`. -/
def backOffStart : ExponentialBackOff :=
  { currentInterval := 1, elapsedTime := 0, randIndex := 0 }

/-- A chunk whose uploads always fail: it retries until the backoff budget is
exhausted. -/
def alwaysFailJob : Nat → Bool := fun _ => false

/-- A chunk whose first upload fails and whose second succeeds. -/
def secondTryJob : Nat → Bool := fun a => decide (1 ≤ a)

/-- Counterexample to C4. The chunk retry budget is NOT independent of the
jobs previously handled by the same worker: handled directly after a chunk
that exhausted the budget, `secondTryJob` fails terminally on its first
attempt, while the same chunk handled with a fresh budget retries and
succeeds. (The backoff object is shared across the worker's jobs and reset
only on success.) -/
theorem backoff_budget_counterexample :
    (workerStart backOffOptsEx randOne 10 [alwaysFailJob, secondTryJob] backOffStart).1 =
      [some "chunk upload failed", some "chunk upload failed"] ∧
    (workerStart backOffOptsEx randOne 10 [secondTryJob] backOffStart).1 = [none] ∧
    (workerStart backOffOptsEx randOne 10 [alwaysFailJob, secondTryJob] backOffStart).1 ≠
      [some "chunk upload failed", none] := by
  refine ⟨?_, ?_, ?_⟩
  · norm_num [workerStart, runJob, nextBackOff, backOffReset, backOffOptsEx, randOne,
      backOffStart, alwaysFailJob, secondTryJob]
  · norm_num [workerStart, runJob, nextBackOff, backOffReset, backOffOptsEx, randOne,
      backOffStart, alwaysFailJob, secondTryJob]
  · norm_num [workerStart, runJob, nextBackOff, backOffReset, backOffOptsEx, randOne,
      backOffStart, alwaysFailJob, secondTryJob]
    exact Option.some_ne_none _

/-- C4 (amended). Each chunk retries with exponential backoff driven by the
configured initial interval, multiplier, randomization factor and max elapsed
time, and a `backoff.Stop` answer makes the chunk's failure terminal; but the
budget is NOT per-chunk: the backoff object is shared by all jobs of a worker
and reset only on success, so a successful job hands the next job a fresh
budget, while a job that exhausted the budget hands the next job the exhausted
state, making a failed first attempt of that next job immediately terminal. -/
theorem backoff_budget_amended :
    (∀ (o : BackOffOpts) (rand : Nat → ℚ) (b : ExponentialBackOff),
      (o.MaxElapsedTime = 0 ∨
        b.elapsedTime + b.currentInterval * rand b.randIndex ≤ o.MaxElapsedTime) →
      nextBackOff o rand b =
        (some (b.currentInterval * rand b.randIndex),
          { currentInterval := b.currentInterval * o.Multiplier,
            elapsedTime := b.elapsedTime + b.currentInterval * rand b.randIndex,
            randIndex := b.randIndex + 1 })) ∧
    (∀ (o : BackOffOpts) (rand : Nat → ℚ) (uploadOk : Nat → Bool) (a fuel : Nat)
        (b : ExponentialBackOff),
      uploadOk a = false → (nextBackOff o rand b).1 = none →
      runJob o rand uploadOk a (fuel + 1) b =
        (some "chunk upload failed", (nextBackOff o rand b).2)) ∧
    (∀ (o : BackOffOpts) (rand : Nat → ℚ) (uploadOk : Nat → Bool) (a fuel : Nat)
        (b b' : ExponentialBackOff),
      runJob o rand uploadOk a fuel b = (none, b') →
      b'.currentInterval = o.InitialDuration ∧ b'.elapsedTime = 0) ∧
    (∀ (o : BackOffOpts) (rand : Nat → ℚ) (uploadOk : Nat → Bool) (fuel : Nat)
        (b : ExponentialBackOff),
      uploadOk 0 = false → o.MaxElapsedTime ≠ 0 →
      o.MaxElapsedTime < b.elapsedTime + b.currentInterval * rand b.randIndex →
      (runJob o rand uploadOk 0 (fuel + 1) b).1 = some "chunk upload failed") := by
  refine ⟨?_, ?_, ?_, ?_⟩
  · intro o rand b h
    unfold nextBackOff
    have hcond : ¬(o.MaxElapsedTime ≠ 0 ∧
        o.MaxElapsedTime < b.elapsedTime + b.currentInterval * rand b.randIndex) := by
      rcases h with h0 | hle
      · intro hc; exact hc.1 h0
      · intro hc; exact absurd hc.2 (not_lt.mpr hle)
    rw [if_neg hcond]
  · intro o rand uploadOk a fuel b hfail hstop
    rw [runJob, hfail]
    simp only [Bool.false_eq_true, if_neg, not_false_iff]
    rcases hnb : nextBackOff o rand b with ⟨d, b2⟩
    rw [hnb] at hstop
    simp only at hstop
    subst hstop
    simp
  · intro o rand uploadOk a fuel b b'
    induction fuel generalizing a b with
    | zero =>
        intro h
        exact absurd (congrArg Prod.fst h) (by simp [runJob])
    | succ f ih =>
        intro h
        rw [runJob] at h
        by_cases hok : uploadOk a = true
        · rw [if_pos hok] at h
          have hb : backOffReset o b = b' := congrArg Prod.snd h
          subst hb
          exact ⟨rfl, rfl⟩
        · rw [if_neg hok] at h
          rcases hnb : nextBackOff o rand b with ⟨d, b2⟩
          rw [hnb] at h
          match d with
          | none =>
              simp only at h
              exact absurd (congrArg Prod.fst h) (by simp)
          | some dd =>
              simp only at h
              exact ih (a + 1) b2 h
  · intro o rand uploadOk fuel b hfail hne hlt
    rw [runJob, hfail]
    simp only [Bool.false_eq_true, if_neg, not_false_iff]
    have hstop : nextBackOff o rand b = (none, { b with randIndex := b.randIndex + 1 }) := by
      unfold nextBackOff
      rw [if_pos ⟨hne, hlt⟩]
    rw [hstop]

/-- Witness for C4 (amended): at the concrete scenario, a successful run of
`secondTryJob` leaves the backoff state reset, and from the exhausted state
`⟨4, 3, 3⟩` a first-attempt failure is immediately terminal. -/
theorem backoff_budget_amended_witness :
    ((⟨1, 0, 1⟩ : ExponentialBackOff).currentInterval = backOffOptsEx.InitialDuration ∧
      (⟨1, 0, 1⟩ : ExponentialBackOff).elapsedTime = 0) ∧
    (runJob backOffOptsEx randOne secondTryJob 0 (9 + 1)
        ⟨4, 3, 3⟩).1 = some "chunk upload failed" := by
  constructor
  · have he : runJob backOffOptsEx randOne secondTryJob 0 10 backOffStart =
        (none, ⟨1, 0, 1⟩) := by
      norm_num [runJob, nextBackOff, backOffReset, backOffOptsEx, randOne,
        backOffStart, secondTryJob]
    exact (backoff_budget_amended.2.2.1) backOffOptsEx randOne secondTryJob 0 10
      backOffStart ⟨1, 0, 1⟩ he
  · exact (backoff_budget_amended.2.2.2) backOffOptsEx randOne secondTryJob 9
      ⟨4, 3, 3⟩ (by decide) (by norm_num [backOffOptsEx]) (by norm_num [backOffOptsEx, randOne])

/-- C10. Calling the upload entry point with an empty file list and a nonzero
chunk size returns success with no error: `getFilesInfos` yields no infos, the
generator dispatches no chunk job, the aggregation sees an empty results
stream and returns `nil`; and a worker whose jobs channel closes without jobs
drains immediately, leaving its state untouched. -/
theorem upload_empty_file_list (chunkSizeBytes : Nat) (stat : String → Option Nat)
    (outcome : uploadChunkJob → Option String) (hcs : chunkSizeBytes ≠ 0) :
    UploadFiles chunkSizeBytes stat outcome [] = (.ok none, []) ∧
    (∀ (o : BackOffOpts) (rand : Nat → ℚ) (fuel : Nat) (b : ExponentialBackOff),
      workerStart o rand fuel [] b = ([], b)) := by
  constructor
  · unfold UploadFiles
    rw [if_neg hcs]
    rfl
  · intro o rand fuel b
    rfl

/-- Witness for C10 at chunk size 300. -/
theorem upload_empty_file_list_witness :
    UploadFiles 300 (fun _ => some 1000) (fun _ => none) [] = (.ok none, []) :=
  (upload_empty_file_list 300 (fun _ => some 1000) (fun _ => none) (by decide)).1

/-- Modelled from the spec: the GCE operation handle interpreted by the
waiter (`WaitOperation` in the instance-manager package, whose implementation
is not part of this tree — only its tests are). Field shapes follow
`compute.Operation` as populated by those tests: `Status` is `"DONE"` when the
operation is done, `HasError` stands for a populated `Error` field, and a
missing `HttpErrorStatusCode` is the zero value. -/
structure ComputeOperation where
  Name : String
  OperationType : String
  TargetLink : String
  Status : String
  HasError : Bool
  HttpErrorMessage : String
  HttpErrorStatusCode : Nat
deriving Repr, DecidableEq

/-- Application-level error carrying an HTTP status code, as `AppError` in the
app errors package. -/
structure AppError where
  Msg : String
  StatusCode : Nat
deriving Repr, DecidableEq

/-- Result of waiting for an operation: an empty result (delete) or the
resource fetched by the identifier parsed from the target link (create). -/
inductive WaitResult where
  | empty
  | resource (name : String)
deriving Repr, DecidableEq

/-- Helper for `lastPathSegment`: scan the characters, keeping the segment
accumulated since the most recent slash. -/
def lastSegmentChars : List Char → List Char → List Char
  | [], acc => acc
  | c :: rest, acc =>
      if c = '/' then lastSegmentChars rest [] else lastSegmentChars rest (acc ++ [c])

/-- Last path segment of a URL: the text after the final slash (the whole
string when it has no slash). An empty segment means the target link is
unparsable. -/
def lastPathSegment (s : String) : String :=
  String.mk (lastSegmentChars s.data [])

/-- Modelled from the spec: `WaitOperation` of the GCE instance manager (its
implementation is not under this tree; behaviour follows spec section 4.2 and
the tests). An operation that is not done yields a 503 error (the caller may
retry at a higher level). A done operation carrying a server-declared error
surfaces the server's message with the server's `HttpErrorStatusCode`,
defaulting to 503 when no status is given (zero value). Otherwise the
operation is interpreted by kind and by the last path segment of its target
link: kind "delete" yields the empty result without fetching; kind "insert"
(create) with a parsable target fetches and returns the resource named by the
last path segment; any other kind, or an empty last path segment, is a fatal
decode error (the 500 status stands for a plain error — only non-nilness is
specified for decode failures). The second component lists the resources
fetched. -/
def WaitOperation (op : ComputeOperation) : Except AppError WaitResult × List String :=
  if op.Status ≠ "DONE" then
    (.error { Msg := "wait timed out", StatusCode := 503 }, [])
  else if op.HasError then
    (.error { Msg := op.HttpErrorMessage,
              StatusCode := if op.HttpErrorStatusCode = 0 then 503
                            else op.HttpErrorStatusCode }, [])
  else if op.OperationType = "delete" then
    (.ok .empty, [])
  else if op.OperationType = "insert" then
    if lastPathSegment op.TargetLink = "" then
      (.error { Msg := "missing instance name in operation target link",
                StatusCode := 500 }, [])
    else
      (.ok (.resource (lastPathSegment op.TargetLink)), [lastPathSegment op.TargetLink])
  else
    (.error { Msg := "unknown operation type", StatusCode := 500 }, [])

/-- C8. For a done operation without a server error, the waiter dispatches on
the operation kind and the last path segment of the target link: "delete"
yields the empty result fetching nothing; "insert" with a parsable target
fetches exactly the resource named by the last path segment and returns it;
any other kind, or an empty last path segment, yields an error and fetches
nothing. -/
theorem wait_operation_done_dispatch (op : ComputeOperation)
    (hdone : op.Status = "DONE") (hnoerr : op.HasError = false) :
    (op.OperationType = "delete" → WaitOperation op = (.ok .empty, [])) ∧
    (op.OperationType = "insert" → lastPathSegment op.TargetLink ≠ "" →
      WaitOperation op =
        (.ok (.resource (lastPathSegment op.TargetLink)), [lastPathSegment op.TargetLink])) ∧
    (op.OperationType ≠ "delete" → op.OperationType ≠ "insert" →
      ∃ e : AppError, WaitOperation op = (.error e, [])) ∧
    (op.OperationType = "insert" → lastPathSegment op.TargetLink = "" →
      ∃ e : AppError, WaitOperation op = (.error e, [])) := by
  refine ⟨?_, ?_, ?_, ?_⟩
  · intro hty
    simp [WaitOperation, hdone, hnoerr, hty]
  · intro hty hseg
    simp [WaitOperation, hdone, hnoerr, hty, hseg]
  · intro hty1 hty2
    refine ⟨{ Msg := "unknown operation type", StatusCode := 500 }, ?_⟩
    simp [WaitOperation, hdone, hnoerr, hty1, hty2]
  · intro hty hseg
    refine ⟨{ Msg := "missing instance name in operation target link", StatusCode := 500 }, ?_⟩
    simp [WaitOperation, hdone, hnoerr, hty, hseg]

/-- Witness for C8 at the tests' inputs: a done delete operation yields the
empty result; a done insert targeting `.../instances/foo` fetches and returns
resource "foo"; a done "refresh" operation and a done insert with a trailing
slash both fail without fetching. -/
theorem wait_operation_done_dispatch_witness :
    WaitOperation
      { Name := "operation-1", OperationType := "delete",
        TargetLink := "https://xyzzy.com/compute/v1/projects/p/zones/z/instances/foo",
        Status := "DONE", HasError := false, HttpErrorMessage := "",
        HttpErrorStatusCode := 0 } = (.ok .empty, []) ∧
    WaitOperation
      { Name := "operation-1", OperationType := "insert",
        TargetLink := "https://xyzzy.com/compute/v1/projects/p/zones/z/instances/foo",
        Status := "DONE", HasError := false, HttpErrorMessage := "",
        HttpErrorStatusCode := 0 } = (.ok (.resource "foo"), ["foo"]) ∧
    (∃ e : AppError, WaitOperation
      { Name := "oper-2", OperationType := "refresh",
        TargetLink := "https://xyzzy.com/compute/v1/projects/p/zones/z/instances/foo",
        Status := "DONE", HasError := false, HttpErrorMessage := "",
        HttpErrorStatusCode := 0 } = (.error e, [])) ∧
    (∃ e : AppError, WaitOperation
      { Name := "oper-3", OperationType := "insert",
        TargetLink := "https://xyzzy.com/compute/v1/projects/p/zones/z/instances/",
        Status := "DONE", HasError := false, HttpErrorMessage := "",
        HttpErrorStatusCode := 0 } = (.error e, [])) := by
  refine ⟨?_, ?_, ?_, ?_⟩
  · exact (wait_operation_done_dispatch _ rfl rfl).1 rfl
  · have h := (wait_operation_done_dispatch
      { Name := "operation-1", OperationType := "insert",
        TargetLink := "https://xyzzy.com/compute/v1/projects/p/zones/z/instances/foo",
        Status := "DONE", HasError := false, HttpErrorMessage := "",
        HttpErrorStatusCode := 0 } rfl rfl).2.1 rfl (by decide)
    have hseg : lastPathSegment
        ({ Name := "operation-1", OperationType := "insert",
           TargetLink := "https://xyzzy.com/compute/v1/projects/p/zones/z/instances/foo",
           Status := "DONE", HasError := false, HttpErrorMessage := "",
           HttpErrorStatusCode := 0 } : ComputeOperation).TargetLink = "foo" := by decide
    rw [hseg] at h
    exact h
  · exact (wait_operation_done_dispatch _ rfl rfl).2.2.1 (by decide) (by decide)
  · exact (wait_operation_done_dispatch _ rfl rfl).2.2.2 rfl (by decide)

/-- C9. For a done operation carrying a server-declared error, the waiter
returns a terminal error whose message is the server's message and whose
status code is the server's `HttpErrorStatusCode`, defaulting to 503 when the
server gives no status code (the zero value); no resource is fetched. -/
theorem wait_operation_error_status (op : ComputeOperation)
    (hdone : op.Status = "DONE") (herr : op.HasError = true) :
    WaitOperation op =
      (.error { Msg := op.HttpErrorMessage,
                StatusCode := if op.HttpErrorStatusCode = 0 then 503
                              else op.HttpErrorStatusCode }, []) ∧
    (op.HttpErrorStatusCode ≠ 0 →
      WaitOperation op =
        (.error { Msg := op.HttpErrorMessage, StatusCode := op.HttpErrorStatusCode }, [])) ∧
    (op.HttpErrorStatusCode = 0 →
      WaitOperation op =
        (.error { Msg := op.HttpErrorMessage, StatusCode := 503 }, [])) := by
  have hbase : WaitOperation op =
      (.error { Msg := op.HttpErrorMessage,
                StatusCode := if op.HttpErrorStatusCode = 0 then 503
                              else op.HttpErrorStatusCode }, []) := by
    simp [WaitOperation, hdone, herr]
  refine ⟨hbase, ?_, ?_⟩
  · intro hnz
    rw [hbase, if_neg hnz]
  · intro hz
    rw [hbase, if_pos hz]

/-- Witness for C9 at the test's input: a done operation with a populated
error, message "NOT FOUND" and `HttpErrorStatusCode = 404` yields a terminal
error with status 404 and the server message; the same operation with no
status code yields status 503. -/
theorem wait_operation_error_status_witness :
    WaitOperation
      { Name := "operation-1", OperationType := "", TargetLink := "",
        Status := "DONE", HasError := true, HttpErrorMessage := "NOT FOUND",
        HttpErrorStatusCode := 404 } =
      (.error { Msg := "NOT FOUND", StatusCode := 404 }, []) ∧
    WaitOperation
      { Name := "operation-1", OperationType := "", TargetLink := "",
        Status := "DONE", HasError := true, HttpErrorMessage := "NOT FOUND",
        HttpErrorStatusCode := 0 } =
      (.error { Msg := "NOT FOUND", StatusCode := 503 }, []) := by
  constructor
  · exact (wait_operation_error_status _ rfl rfl).2.1 (by decide)
  · exact (wait_operation_error_status _ rfl rfl).2.2 rfl
